import Mathlib

/-!
Verification of the thunders lobby-runtime server against its specification.

The definitions below are a shallow embedding of the Rust sources:
  * `src/server/protocol.rs`   — `SessionManager`, `process_message`, `disconnect`
  * `src/server/runtime.rs`    — `GameRuntimeHandle` (lobby registry, type-erased handle)
  * `src/server/runtime/sync.rs` — the per-lobby worker loop (`SyncRuntime::start`)
  * `src/client/reply.rs`      — `ReplyManager`
  * `src/api/schema/json.rs`   — the JSON envelope codec (modelled at the
    `serde_json::Value` tree level, with an explicit renderer and a fuel-based
    value reader standing in for `serde_json`'s text layer)

Rust `HashMap`s are modelled as association lists with `insert`-replaces
semantics; `u64` player ids are modelled as `Nat`; opaque byte payloads
(`Vec<u8>`) are modelled as `String`.
-/

namespace Thunders

/-- Association-list lookup, modelling `HashMap::get`. -/
def alookup {κ β : Type} [DecidableEq κ] : List (κ × β) → κ → Option β
  | [], _ => none
  | (k0, v0) :: rest, k => if k0 = k then some v0 else alookup rest k

/-- Association-list insert-or-replace, modelling `HashMap::insert`. -/
def ainsert {κ β : Type} [DecidableEq κ] : List (κ × β) → κ → β → List (κ × β)
  | [], k, v => [(k, v)]
  | (k0, v0) :: rest, k, v =>
    if k0 = k then (k, v) :: rest else (k0, v0) :: ainsert rest k v

/-- Association-list removal of a key, modelling `HashMap::remove`. -/
def aremove {κ β : Type} [DecidableEq κ] : List (κ × β) → κ → List (κ × β)
  | [], _ => []
  | (k0, v0) :: rest, k => if k0 = k then rest else (k0, v0) :: aremove rest k

/-- Wire output messages, from `src/api/message.rs` (`OutputMessage`). -/
inductive OutputMessage : Type
  | Connect (correlationId : String) (success : Bool)
  | Create (correlationId : String) (success : Bool)
  | Join (correlationId : String) (success : Bool)
  | Diff (type_ : String) (id : String) (finished : Bool) (data : String)
  | GenericError (description : String)
deriving DecidableEq

/-- Wire input messages, from `src/api/message.rs` (`InputMessage`).
`options`/`data` are the opaque user payload bytes (`data` empty models the
absent payload, as in the Rust `Vec::default`). -/
inductive InputMessage : Type
  | Connect (correlationId : String) (id : Nat)
  | Create (correlationId : String) (type_ : String) (id : String) (options : Option String)
  | Join (correlationId : String) (type_ : String) (id : String)
  | Action (type_ : String) (id : String) (data : String)
deriving DecidableEq

/-- The one description string both `ThundersServerError` and `ThundersError`
convert to in their `Into<OutputMessage>` impls (`src/server/error.rs`,
`src/api/error.rs`). -/
def genericErrorDescription : String := "Generic error, please provide more details"

/-- `SessionManager` (`src/server/protocol.rs`): the per-player outbound queue
map and the subscription index. The outbound queue holds the messages pushed
to the player's channel, in order (the source enqueues the serialized bytes;
we keep the structured message, serialization being injective per message). -/
structure SessionManager : Type where
  sessions : List (Nat × List OutputMessage)
  subscriptions : List (Nat × List (String × List String))
deriving DecidableEq

/-- `SessionManager::connect`: creates a fresh channel whose queue already
holds `ConnectAck{success:true}`, inserts it (replacing any live session with
the same id), and resets the subscription set to empty. -/
def SessionManager.connect (sm : SessionManager) (correlationId : String)
    (playerId : Nat) : SessionManager :=
  { sessions := ainsert sm.sessions playerId [OutputMessage.Connect correlationId true]
    subscriptions := ainsert sm.subscriptions playerId [] }

/-- `SessionManager::subscribe`: appends `id` to the list for `type_` in the
player's subscription set. The source `expect`s the player's entry to exist
(panics otherwise); `none` models that panic. -/
def SessionManager.subscribe (sm : SessionManager) (playerId : Nat)
    (type_ id : String) : Option SessionManager :=
  match alookup sm.subscriptions playerId with
  | none => none
  | some subs =>
    some { sm with
      subscriptions :=
        ainsert sm.subscriptions playerId
          (ainsert subs type_ (((alookup subs type_).getD []) ++ [id])) }

/-- `SessionManager::unsubscribe_all`: removes and returns the player's
subscription set. (The source removes only the subscription entry; the
session entry in `sessions` is left in place.) -/
def SessionManager.unsubscribeAll (sm : SessionManager) (playerId : Nat) :
    Option (List (String × List String)) × SessionManager :=
  (alookup sm.subscriptions playerId,
   { sm with subscriptions := aremove sm.subscriptions playerId })

/-- `SessionManager::send`: enqueue to the player's session; a missing
session is a silent drop. -/
def SessionManager.send (sm : SessionManager) (playerId : Nat)
    (m : OutputMessage) : SessionManager :=
  match alookup sm.sessions playerId with
  | none => sm
  | some q => { sm with sessions := ainsert sm.sessions playerId (q ++ [m]) }

/-- `SessionManager::send_all`: enqueue one message to each listed player. -/
def SessionManager.sendAll (sm : SessionManager) (playerIds : List Nat)
    (m : OutputMessage) : SessionManager :=
  playerIds.foldl (fun acc p => acc.send p m) sm

/-- A lobby-worker event (`RuntimeAction` in `src/server/runtime.rs`): the
registry pushes `(sender_id, event)` pairs into the worker's channel. The
decoded user action is modelled as a `String`. -/
inductive REvent : Type
  | Action (a : String)
  | Join (joinId : Nat)
  | Leave (leaveId : Nat)
deriving DecidableEq

/-- The observable side of a lobby runtime handle: the FIFO of events sent
into the worker thread (`SyncGameHandle::send`). -/
structure LobbyHandle : Type where
  events : List (Nat × REvent)
deriving DecidableEq

/-- A type-erased lobby-type handle (`GameRuntimeHandle` seen through
`GameRuntimeAnyHandle`): the payload decoders for this lobby type and the
`lobby_id → runtime handle` map. -/
structure TypeHandler : Type where
  decodeOptions : String → Option String
  decodeAction : String → Option String
  rooms : List (String × LobbyHandle)

/-- `GameRuntimeHandle::register` (typed): builds a brand-new runtime, starts
its worker, sends the creator's Join into it, and `insert`s the handle into
the map — replacing any existing entry for the same lobby id. (The decoded
options value only feeds `H::build` inside the new worker; at the registry
level the observable state is the fresh event queue.) -/
def TypeHandler.registerTyped (h : TypeHandler) (playerId : Nat)
    (roomId : String) : TypeHandler :=
  { h with rooms := ainsert h.rooms roomId ({ events := [(playerId, REvent.Join playerId)] }) }

/-- `GameRuntimeHandle::join`: send a Join to the room's worker if the room
exists, silently do nothing otherwise. -/
def TypeHandler.joinRoom (h : TypeHandler) (playerId : Nat)
    (roomId : String) : TypeHandler :=
  match alookup h.rooms roomId with
  | none => h
  | some lh =>
    let lh2 : LobbyHandle := { events := lh.events ++ [(playerId, REvent.Join playerId)] }
    { h with rooms := ainsert h.rooms roomId lh2 }

/-- `GameRuntimeHandle::leave`: send a Leave to the room's worker if the room
exists, silently do nothing otherwise. -/
def TypeHandler.leaveRoom (h : TypeHandler) (playerId : Nat)
    (roomId : String) : TypeHandler :=
  match alookup h.rooms roomId with
  | none => h
  | some lh =>
    let lh2 : LobbyHandle := { events := lh.events ++ [(playerId, REvent.Leave playerId)] }
    { h with rooms := ainsert h.rooms roomId lh2 }

/-- `GameRuntimeHandle::action` (typed): send a decoded action to the room's
worker if the room exists, silently do nothing otherwise. -/
def TypeHandler.actionRoom (h : TypeHandler) (playerId : Nat)
    (roomId : String) (a : String) : TypeHandler :=
  match alookup h.rooms roomId with
  | none => h
  | some lh =>
    let lh2 : LobbyHandle := { events := lh.events ++ [(playerId, REvent.Action a)] }
    { h with rooms := ainsert h.rooms roomId lh2 }

/-- The erased `register` (`GameRuntimeAnyHandle for GameRuntimeHandle`):
decode `options` when present; on decode failure send the error (a
`GenericError`) to the requesting player and create nothing; otherwise (or
when `options` is absent, using `Options::default()`) run the typed
register. -/
def TypeHandler.registerErased (h : TypeHandler) (sm : SessionManager)
    (playerId : Nat) (roomId : String) (options : Option String) :
    TypeHandler × SessionManager :=
  match options with
  | some b =>
    match h.decodeOptions b with
    | some _ => (h.registerTyped playerId roomId, sm)
    | none => (h, sm.send playerId (OutputMessage.GenericError genericErrorDescription))
  | none => (h.registerTyped playerId roomId, sm)

/-- The erased `action`: decode failure is returned as an error to the
caller; success forwards the decoded action. -/
def TypeHandler.actionErased (h : TypeHandler) (playerId : Nat)
    (roomId : String) (b : String) : Except Unit TypeHandler :=
  match h.decodeAction b with
  | some a => Except.ok (h.actionRoom playerId roomId a)
  | none => Except.error ()

/-- The server-side state the message router acts on: the session fabric and
the registered `lobby-type → handle` table (the `handlers` map of
`src/server/protocol.rs`). -/
structure ServerState : Type where
  sm : SessionManager
  handlers : List (String × TypeHandler)

/-- `process_message` (`src/server/protocol.rs`), for an already-decoded
input message from a connected player. `none` models the panic inside
`SessionManager::subscribe` when the player has no subscription entry.
Mirrors the source exactly: Create subscribes, registers (unconditionally),
then always sends `CreateAck{success:true}`; Join subscribes, forwards, then
always sends `JoinAck{success:true}`; unknown lobby type sends a
`GenericError`; an Action decode error is discarded (`let _ = ...`). -/
def processMessage (st : ServerState) (playerId : Nat) (msg : InputMessage) :
    Option ServerState :=
  match msg with
  | InputMessage.Create correlationId type_ id options =>
    match alookup st.handlers type_ with
    | some h =>
      match st.sm.subscribe playerId type_ id with
      | none => none
      | some sm1 =>
        let hs := h.registerErased sm1 playerId id options
        let sm2 := hs.2.send playerId (OutputMessage.Create correlationId true)
        some { sm := sm2, handlers := ainsert st.handlers type_ hs.1 }
    | none =>
      some { st with
        sm := st.sm.send playerId (OutputMessage.GenericError genericErrorDescription) }
  | InputMessage.Join correlationId type_ id =>
    match alookup st.handlers type_ with
    | some h =>
      match st.sm.subscribe playerId type_ id with
      | none => none
      | some sm1 =>
        let h1 := h.joinRoom playerId id
        let sm2 := sm1.send playerId (OutputMessage.Join correlationId true)
        some { sm := sm2, handlers := ainsert st.handlers type_ h1 }
    | none =>
      some { st with
        sm := st.sm.send playerId (OutputMessage.GenericError genericErrorDescription) }
  | InputMessage.Action type_ id data =>
    match alookup st.handlers type_ with
    | some h =>
      match h.actionErased playerId id data with
      | Except.ok h1 => some { st with handlers := ainsert st.handlers type_ h1 }
      | Except.error _ => some st
    | none => some st
  | InputMessage.Connect _ _ => some st

/-- Inner loop of the disconnect sweep: `for room_id in room_ids
{ handler.leave(p_id, room_id) }`. -/
def leaveAllRooms (h : TypeHandler) (playerId : Nat)
    (roomIds : List String) : TypeHandler :=
  roomIds.foldl (fun acc i => acc.leaveRoom playerId i) h

/-- Outer loop of the disconnect sweep over the drained subscription set;
`none` models the `expect` panic when a subscribed type has no registered
handler. -/
def disconnectLoop (handlers : List (String × TypeHandler)) (playerId : Nat) :
    List (String × List String) → Option (List (String × TypeHandler))
  | [] => some handlers
  | (type_, ids) :: rest =>
    match alookup handlers type_ with
    | none => none
    | some h =>
      disconnectLoop (ainsert handlers type_ (leaveAllRooms h playerId ids)) playerId rest

/-- `disconnect` (`src/server/protocol.rs`): drain the player's subscription
set and issue one Leave per recorded lobby-id occurrence. -/
def disconnect (st : ServerState) (playerId : Nat) : Option ServerState :=
  let r := st.sm.unsubscribeAll playerId
  match r.1 with
  | none => some { st with sm := r.2 }
  | some subs =>
    (disconnectLoop st.handlers playerId subs).map
      (fun hs => { sm := r.2, handlers := hs })

/-- The event queue of room `(t, i)`, as observed by its worker. -/
def roomEvents (st : ServerState) (t i : String) : Option (List (Nat × REvent)) :=
  match alookup st.handlers t with
  | none => none
  | some h => (alookup h.rooms i).map (fun lh => lh.events)

/-- The outbound queue of player `p`. -/
def queueOf (st : ServerState) (p : Nat) : Option (List OutputMessage) :=
  alookup st.sm.sessions p

/-- Number of Leave events carrying player `p` in an event queue. -/
def leaveCount (evs : List (Nat × REvent)) (p : Nat) : Nat :=
  (evs.filter (fun e => e.2 = REvent.Leave p)).length

/-- Occurrence count of a lobby id in an id list. -/
def occCount (ids : List String) (i : String) : Nat :=
  (ids.filter (fun x => x = i)).length

/-- How many times lobby id `i` is recorded under type `t` in a drained
subscription set. -/
def subOccurrences (subs : List (String × List String)) (t i : String) : Nat :=
  occCount ((alookup subs t).getD []) i

/-- A permissive test lobby-type handler (both payload decoders accept). -/
def hAccept : TypeHandler :=
  { decodeOptions := fun s => some s, decodeAction := fun s => some s, rooms := [] }

/-- A test lobby-type handler whose payload decoders always fail. -/
def hReject : TypeHandler :=
  { decodeOptions := fun _ => none, decodeAction := fun _ => none, rooms := [] }

/-- A resolution delivered to a pending reply receiver
(`Reply` in `src/client/reply.rs`). -/
inductive Reply (R E : Type) : Type
  | Ok (r : R)
  | Err (e : E)
  | Timeout
deriving DecidableEq

/-- `ReplyManager` (`src/client/reply.rs`), observed through the ids that
still hold a pending one-shot sender and the log of resolutions actually sent
to receivers. The mutex around `replies_registry` serializes `register`,
`ok`, `error` and the per-entry resolution step of `vacuum`, so the
concurrent manager is modelled as a sequence of atomic operations. -/
structure ReplyManager (Id R E : Type) : Type where
  repliesRegistry : List Id
  delivered : List (Id × Reply R E)
deriving DecidableEq

/-- One serialized operation against the reply manager. `expire id` is the
body of the `vacuum` loop for one popped heap entry whose expiry is past. -/
inductive RMOp (Id R E : Type) : Type
  | register (id : Id)
  | ok (id : Id) (r : R)
  | err (id : Id) (e : E)
  | expire (id : Id)
deriving DecidableEq

/-- The effect of one serialized `ReplyManager` operation: `ok`/`error`/
`vacuum` all `remove` the pending sender first and send only when one was
present. `register` inserts a fresh sender (replacing any previous sender
for the same id, whose receiver then never gets a `Reply`). -/
def RMstep {Id R E : Type} [DecidableEq Id] (m : ReplyManager Id R E) :
    RMOp Id R E → ReplyManager Id R E
  | RMOp.register id =>
    { m with repliesRegistry :=
        if id ∈ m.repliesRegistry then m.repliesRegistry else id :: m.repliesRegistry }
  | RMOp.ok id r =>
    if id ∈ m.repliesRegistry then
      { repliesRegistry := m.repliesRegistry.filter (fun x => x ≠ id)
        delivered := m.delivered ++ [(id, Reply.Ok r)] }
    else m
  | RMOp.err id e =>
    if id ∈ m.repliesRegistry then
      { repliesRegistry := m.repliesRegistry.filter (fun x => x ≠ id)
        delivered := m.delivered ++ [(id, Reply.Err e)] }
    else m
  | RMOp.expire id =>
    if id ∈ m.repliesRegistry then
      { repliesRegistry := m.repliesRegistry.filter (fun x => x ≠ id)
        delivered := m.delivered ++ [(id, Reply.Timeout)] }
    else m

/-- Run a sequence of serialized reply-manager operations. -/
def RMrun {Id R E : Type} [DecidableEq Id] (m : ReplyManager Id R E)
    (ops : List (RMOp Id R E)) : ReplyManager Id R E :=
  ops.foldl RMstep m

/-- The number of resolutions ever delivered for a correlation id. -/
def deliveredCount {Id R E : Type} [DecidableEq Id]
    (m : ReplyManager Id R E) (id : Id) : Nat :=
  (m.delivered.filter (fun e => e.1 = id)).length

/-- A fan-out target, `Diff` in `src/server/hooks.rs` as matched by
`SyncRuntime::notify` (`All` / `TargetUnique` / `TargetList`). -/
inductive WDiff (δ : Type) : Type
  | All (delta : δ)
  | TargetUnique (id : Nat) (delta : δ)
  | TargetList (ids : List Nat) (delta : δ)
deriving DecidableEq

/-- The user `GameHooks` contract as called by the worker loop in
`src/server/runtime/sync.rs`: game state `σ`, delta type `δ`, decoded action
type `α`. Players are identified by their id (the `PlayerContext` only adds
an attribute map the worker never reads). -/
structure WorkerHooks (σ δ α : Type) : Type where
  isFinished : σ → Bool × Option (WDiff δ)
  onJoin : σ → Nat → σ × Option (List (WDiff δ))
  onLeave : σ → Nat → σ × Option (WDiff δ)
  onTick : σ → List Nat → List (Nat × α) → σ × Option (List (WDiff δ))

/-- One outbound fan-out: a `DiffNotification` pushed through the session
fabric to `recipients`. `payload = none` is the terminal
`Diff{finished:true}` notification, whose `data` is the empty vector. -/
structure Emit (δ : Type) : Type where
  recipients : List Nat
  finished : Bool
  payload : Option δ
deriving DecidableEq

/-- `SyncRuntime::notify`: `All` targets every current member,
`TargetUnique` one player, `TargetList` the listed players; the delta is
serialized once per fan-out group. -/
def notifyEmit {δ : Type} (players : List Nat) : WDiff δ → Emit δ
  | WDiff.All d => { recipients := players, finished := false, payload := some d }
  | WDiff.TargetUnique i d => { recipients := [i], finished := false, payload := some d }
  | WDiff.TargetList ids d => { recipients := ids, finished := false, payload := some d }

/-- Emissions produced by one hook result (a `None` diff list emits
nothing). -/
def emitsOf {δ : Type} (players : List Nat) (ds : Option (List (WDiff δ))) :
    List (Emit δ) :=
  (ds.getD []).map (notifyEmit players)

/-- `players_cxts.insert(cxt.id(), cxt)`: id-keyed map insert, observed on
the key set. -/
def insertPlayer (ps : List Nat) (p : Nat) : List Nat :=
  if p ∈ ps then ps else ps ++ [p]

/-- `players_cxts.remove(&id)`, observed on the key set. -/
def removePlayer (ps : List Nat) (p : Nat) : List Nat :=
  ps.filter (fun q => q ≠ p)

/-- An event read from the worker's channel (the payload of
`RuntimeAction`); the channel carries `(sender_id, event)` pairs. -/
inductive WEvent (α : Type) : Type
  | Action (a : α)
  | Join (joinId : Nat)
  | Leave (leaveId : Nat)
deriving DecidableEq

/-- A record of one user-hook invocation made by the worker. -/
inductive HookCall (α : Type) : Type
  | tick (players : List Nat) (actions : List (Nat × α))
  | joined (p : Nat)
  | left (p : Nat)
deriving DecidableEq

/-- Worker-local state: the owned hook state, the current member set and the
per-cycle `actions_buffer`. -/
structure WState (σ α : Type) : Type where
  game : σ
  players : List Nat
  buffer : List (Nat × α)

/-- Result of a worker step: successor state, fan-outs pushed (in order) and
the hooks invoked (in order). -/
structure StepOut (σ δ α : Type) : Type where
  st : WState σ α
  emits : List (Emit δ)
  trace : List (HookCall α)

/-- Processing of one received event, common to the outer `recv_timeout`
match and the batching-window match in `SyncRuntime::start`: an Action is
pushed onto `actions_buffer`; a Join inserts the player then runs `on_join`
and emits its diffs against the post-insert member set; a Leave runs
`on_leave` (and emits) only when the player was present. -/
def procEvent {σ δ α : Type} (H : WorkerHooks σ δ α) (st : WState σ α) :
    Nat × WEvent α → StepOut σ δ α
  | (sender, WEvent.Action a) =>
    { st := { st with buffer := st.buffer ++ [(sender, a)] }, emits := [], trace := [] }
  | (_, WEvent.Join j) =>
    let ps := insertPlayer st.players j
    let r := H.onJoin st.game j
    { st := { st with game := r.1, players := ps }
      emits := emitsOf ps r.2
      trace := [HookCall.joined j] }
  | (_, WEvent.Leave l) =>
    if l ∈ st.players then
      let ps := removePlayer st.players l
      let r := H.onLeave st.game l
      { st := { st with game := r.1, players := ps }
        emits := emitsOf ps (r.2.map (fun d => [d]))
        trace := [HookCall.left l] }
    else { st := st, emits := [], trace := [] }

/-- The batching window (`while let Ok(event) = action_rx.recv_timeout(tick)`
in `SyncRuntime::start`): the events received before the window's budget ran
out, processed in arrival order. -/
def runWindow {σ δ α : Type} (H : WorkerHooks σ δ α) (st : WState σ α) :
    List (Nat × WEvent α) → StepOut σ δ α
  | [] => { st := st, emits := [], trace := [] }
  | e :: rest =>
    let r1 := procEvent H st e
    let r2 := runWindow H r1.st rest
    { st := r2.st, emits := r1.emits ++ r2.emits, trace := r1.trace ++ r2.trace }

/-- The outcome of the outer `recv_timeout(tick_no_action)` for one loop
iteration, together with (for a first Action) the events that then arrive
within the batching window. -/
inductive CycleInput (α : Type) : Type
  | idle
  | firstJoin (sender : Nat) (j : Nat)
  | firstLeave (sender : Nat) (l : Nat)
  | firstAction (sender : Nat) (a : α) (window : List (Nat × WEvent α))

/-- One non-terminating iteration of the `SyncRuntime::start` loop body after
the `is_finished` check: an idle timeout calls `on_tick(players, vec![])`; a
first Join/Leave is processed immediately and the loop continues; a first
Action opens the batching window and, when it closes, calls `on_tick` once
with the drained `actions_buffer`. -/
def cycle {σ δ α : Type} (H : WorkerHooks σ δ α) (st : WState σ α) :
    CycleInput α → StepOut σ δ α
  | CycleInput.idle =>
    let r := H.onTick st.game st.players []
    { st := { st with game := r.1 }
      emits := emitsOf st.players r.2
      trace := [HookCall.tick st.players []] }
  | CycleInput.firstJoin s j => procEvent H st (s, WEvent.Join j)
  | CycleInput.firstLeave s l => procEvent H st (s, WEvent.Leave l)
  | CycleInput.firstAction s a window =>
    let st1 : WState σ α := { st with buffer := st.buffer ++ [(s, a)] }
    let rw := runWindow H st1 window
    let r := H.onTick rw.st.game rw.st.players rw.st.buffer
    { st := { rw.st with game := r.1, buffer := [] }
      emits := rw.emits ++ emitsOf rw.st.players r.2
      trace := rw.trace ++ [HookCall.tick rw.st.players rw.st.buffer] }

/-- The emissions of the terminal branch of the worker loop: the optional
terminal delta, then `Diff{finished:true}` (empty data) to every current
member. -/
def finishEmits {σ δ α : Type} (st : WState σ α) (dopt : Option (WDiff δ)) :
    List (Emit δ) :=
  (match dopt with
   | some d => [notifyEmit st.players d]
   | none => []) ++
  [{ recipients := st.players, finished := true, payload := none }]

/-- The worker loop of `SyncRuntime::start`, driven by a finite schedule of
per-iteration channel outcomes. Each iteration first consults `is_finished`;
on `true` it emits the terminal notifications and exits, never calling
another hook. An exhausted schedule just stops observing a still-live
worker. -/
def runWorker {σ δ α : Type} (H : WorkerHooks σ δ α) (st : WState σ α) :
    List (CycleInput α) → List (Emit δ) × List (HookCall α) :=
  fun inputs =>
    match H.isFinished st.game with
    | (true, dopt) => (finishEmits st dopt, [])
    | (false, _) =>
      match inputs with
      | [] => ([], [])
      | i :: rest =>
        let r := cycle H st i
        let rec2 := runWorker H r.st rest
        (r.emits ++ rec2.1, r.trace ++ rec2.2)

/-- The `(player, action)` pairs carried by a window's Action events, in
arrival order. -/
def actsOf {α : Type} (w : List (Nat × WEvent α)) : List (Nat × α) :=
  w.filterMap (fun e =>
    match e.2 with
    | WEvent.Action a => some (e.1, a)
    | _ => none)

/-- The action lists of the `on_tick` invocations in a hook trace. -/
def ticksOf {α : Type} (tr : List (HookCall α)) : List (List (Nat × α)) :=
  tr.filterMap (fun c =>
    match c with
    | HookCall.tick _ acts => some acts
    | _ => none)

/-- `true` for the trace entries of immediately-processed Join/Leave
events. -/
def isJoinLeave {α : Type} : HookCall α → Prop
  | HookCall.tick _ _ => False
  | HookCall.joined _ => True
  | HookCall.left _ => True

/-- A `serde_json::Value` tree. Numbers are restricted to integers: every
envelope field is a string, bool or `u64`, and the opaque payloads exercised
here are integral. Object field lists are kept in the sorted, duplicate-free
order `serde_json`'s `BTreeMap<String, Value>` iterates in. -/
inductive Jval : Type
  | jnull
  | jbool (b : Bool)
  | jnum (n : Int)
  | jstr (s : String)
  | jarr (elems : List Jval)
  | jobj (fields : List (String × Jval))

/-- Opening brace character. -/
def obrace : Char := Char.ofNat 123

/-- Closing brace character. -/
def cbrace : Char := Char.ofNat 125

/-- Lowercase hex digit. -/
def hexDigit (n : Nat) : Char :=
  if n < 10 then Char.ofNat (48 + n) else Char.ofNat (87 + n)

/-- Four-digit lowercase hex, for `\u00XX` escapes. -/
def hex4 (n : Nat) : String :=
  String.mk [hexDigit (n / 4096 % 16), hexDigit (n / 256 % 16),
             hexDigit (n / 16 % 16), hexDigit (n % 16)]

/-- `serde_json` string escaping: quote, backslash, the short control
escapes, `\u00XX` for the remaining control characters. -/
def escapeChar (c : Char) : String :=
  if c = Char.ofNat 34 then String.mk [Char.ofNat 92, Char.ofNat 34]
  else if c = Char.ofNat 92 then String.mk [Char.ofNat 92, Char.ofNat 92]
  else if c = Char.ofNat 8 then String.mk [Char.ofNat 92, 'b']
  else if c = Char.ofNat 9 then String.mk [Char.ofNat 92, 't']
  else if c = Char.ofNat 10 then String.mk [Char.ofNat 92, 'n']
  else if c = Char.ofNat 12 then String.mk [Char.ofNat 92, 'f']
  else if c = Char.ofNat 13 then String.mk [Char.ofNat 92, 'r']
  else if c.toNat < 32 then String.mk [Char.ofNat 92, 'u'] ++ hex4 c.toNat
  else String.singleton c

/-- Escape every character of a string. -/
def escapeString (s : String) : String :=
  s.data.foldl (fun acc c => acc ++ escapeChar c) ""

mutual

/-- `Value::to_string()`: the compact `serde_json` text form (no spaces,
object keys in map order). -/
def Jval.render : Jval → String
  | Jval.jnull => "null"
  | Jval.jbool true => "true"
  | Jval.jbool false => "false"
  | Jval.jnum n => toString n
  | Jval.jstr s => String.singleton (Char.ofNat 34) ++ escapeString s ++ String.singleton (Char.ofNat 34)
  | Jval.jarr es => "[" ++ renderElems es ++ "]"
  | Jval.jobj fs => String.singleton obrace ++ renderFields fs ++ String.singleton cbrace

/-- Comma-joined rendering of array elements. -/
def renderElems : List Jval → String
  | [] => ""
  | [e] => Jval.render e
  | e :: e2 :: rest => Jval.render e ++ "," ++ renderElems (e2 :: rest)

/-- Comma-joined rendering of object members. -/
def renderFields : List (String × Jval) → String
  | [] => ""
  | [(k, v)] =>
    String.singleton (Char.ofNat 34) ++ escapeString k ++ String.singleton (Char.ofNat 34)
      ++ ":" ++ Jval.render v
  | (k, v) :: f2 :: rest =>
    String.singleton (Char.ofNat 34) ++ escapeString k ++ String.singleton (Char.ofNat 34)
      ++ ":" ++ Jval.render v ++ "," ++ renderFields (f2 :: rest)

end

/-- Insert into a `BTreeMap<String, Value>` model: keep keys sorted, a
repeated key replaces the stored value. -/
def insertSorted : List (String × Jval) → String → Jval → List (String × Jval)
  | [], k, v => [(k, v)]
  | (k0, v0) :: rest, k, v =>
    match compare k k0 with
    | Ordering.lt => (k, v) :: (k0, v0) :: rest
    | Ordering.eq => (k, v) :: rest
    | Ordering.gt => (k0, v0) :: insertSorted rest k v

/-- JSON whitespace. -/
def isWs (c : Char) : Bool :=
  c = ' ' || c = Char.ofNat 10 || c = Char.ofNat 9 || c = Char.ofNat 13

/-- Skip leading JSON whitespace. -/
def skipWs : List Char → List Char
  | [] => []
  | c :: rest => if isWs c then skipWs rest else c :: rest

/-- Hex digit value. -/
def hexVal (c : Char) : Option Nat :=
  if 48 ≤ c.toNat ∧ c.toNat ≤ 57 then some (c.toNat - 48)
  else if 97 ≤ c.toNat ∧ c.toNat ≤ 102 then some (c.toNat - 87)
  else if 65 ≤ c.toNat ∧ c.toNat ≤ 70 then some (c.toNat - 55)
  else none

/-- Read a JSON string body (after the opening quote) up to its closing
quote, decoding escapes; surrogate pairs are out of the modelled payload
domain. Returns the decoded characters and the remaining input. -/
def strBody : Nat → List Char → List Char → Option (List Char × List Char)
  | 0, _, _ => none
  | Nat.succ fuel, cs, acc =>
    match cs with
    | [] => none
    | c :: rest =>
      if c = Char.ofNat 34 then some (acc.reverse, rest)
      else if c = Char.ofNat 92 then
        match rest with
        | [] => none
        | e :: r2 =>
          if e = Char.ofNat 34 then strBody fuel r2 (Char.ofNat 34 :: acc)
          else if e = Char.ofNat 92 then strBody fuel r2 (Char.ofNat 92 :: acc)
          else if e = '/' then strBody fuel r2 ('/' :: acc)
          else if e = 'b' then strBody fuel r2 (Char.ofNat 8 :: acc)
          else if e = 'f' then strBody fuel r2 (Char.ofNat 12 :: acc)
          else if e = 'n' then strBody fuel r2 (Char.ofNat 10 :: acc)
          else if e = 'r' then strBody fuel r2 (Char.ofNat 13 :: acc)
          else if e = 't' then strBody fuel r2 (Char.ofNat 9 :: acc)
          else if e = 'u' then
            match r2 with
            | h1 :: h2 :: h3 :: h4 :: r3 =>
              match hexVal h1, hexVal h2, hexVal h3, hexVal h4 with
              | some a, some b, some c3, some d =>
                strBody fuel r3 (Char.ofNat (4096 * a + 256 * b + 16 * c3 + d) :: acc)
              | _, _, _, _ => none
            | _ => none
          else none
      else strBody fuel rest (c :: acc)

/-- Longest digit run. -/
def takeDigits : List Char → List Char × List Char
  | [] => ([], [])
  | c :: rest =>
    if c.isDigit then
      let r := takeDigits rest
      (c :: r.1, r.2)
    else ([], c :: rest)

/-- Numeric value of a digit run. -/
def digitsVal (ds : List Char) : Nat :=
  ds.foldl (fun acc c => 10 * acc + (c.toNat - 48)) 0

mutual

/-- The `serde_json` reader, restricted to the integral-number fragment (a
`.`/`e`/`E` after a digit run is rejected rather than read as a float).
Fuel-indexed; fuel exceeding the input length is always sufficient. -/
def jsonVal : Nat → List Char → Option (Jval × List Char)
  | 0, _ => none
  | Nat.succ fuel, cs =>
    match skipWs cs with
    | [] => none
    | c :: rest =>
      if c = 'n' then
        match rest with
        | 'u' :: 'l' :: 'l' :: r => some (Jval.jnull, r)
        | _ => none
      else if c = 't' then
        match rest with
        | 'r' :: 'u' :: 'e' :: r => some (Jval.jbool true, r)
        | _ => none
      else if c = 'f' then
        match rest with
        | 'a' :: 'l' :: 's' :: 'e' :: r => some (Jval.jbool false, r)
        | _ => none
      else if c = Char.ofNat 34 then
        (strBody (Nat.succ fuel) rest []).map (fun p => (Jval.jstr (String.mk p.1), p.2))
      else if c = '-' then
        let p := takeDigits rest
        match p.1 with
        | [] => none
        | _ :: _ =>
          match p.2 with
          | d :: _ =>
            if d = '.' ∨ d = 'e' ∨ d = 'E' then none
            else some (Jval.jnum (-(Int.ofNat (digitsVal p.1))), p.2)
          | [] => some (Jval.jnum (-(Int.ofNat (digitsVal p.1))), p.2)
      else if c.isDigit then
        let p := takeDigits (c :: rest)
        match p.2 with
        | d :: _ =>
          if d = '.' ∨ d = 'e' ∨ d = 'E' then none
          else some (Jval.jnum (Int.ofNat (digitsVal p.1)), p.2)
        | [] => some (Jval.jnum (Int.ofNat (digitsVal p.1)), p.2)
      else if c = '[' then
        match skipWs rest with
        | d :: r2 => if d = ']' then some (Jval.jarr [], r2) else jsonItems fuel (d :: r2) []
        | [] => none
      else if c = obrace then
        match skipWs rest with
        | d :: r2 => if d = cbrace then some (Jval.jobj [], r2) else jsonMembers fuel (d :: r2) []
        | [] => none
      else none

/-- Array items, accumulated in reverse. -/
def jsonItems : Nat → List Char → List Jval → Option (Jval × List Char)
  | 0, _, _ => none
  | Nat.succ fuel, cs, acc =>
    match jsonVal fuel cs with
    | none => none
    | some (v, r) =>
      match skipWs r with
      | ',' :: r2 => jsonItems fuel r2 (v :: acc)
      | d :: r2 => if d = ']' then some (Jval.jarr (v :: acc).reverse, r2) else none
      | [] => none

/-- Object members (starting at a key's opening quote), accumulated through
`insertSorted` as `BTreeMap` insertion does. -/
def jsonMembers : Nat → List Char → List (String × Jval) → Option (Jval × List Char)
  | 0, _, _ => none
  | Nat.succ fuel, cs, acc =>
    match cs with
    | c :: rest =>
      if c = Char.ofNat 34 then
        match strBody (Nat.succ fuel) rest [] with
        | none => none
        | some (ks, r1) =>
          match skipWs r1 with
          | ':' :: r2 =>
            match jsonVal fuel r2 with
            | none => none
            | some (v, r3) =>
              let acc2 := insertSorted acc (String.mk ks) v
              match skipWs r3 with
              | ',' :: r4 => jsonMembers fuel (skipWs r4) acc2
              | d :: r4 => if d = cbrace then some (Jval.jobj acc2, r4) else none
              | [] => none
          | _ => none
      else none
    | [] => none

end

/-- `serde_json::from_slice::<Value>` on a whole payload: read one value,
then require only whitespace to follow. -/
def parsePayload (b : String) : Option Jval :=
  match jsonVal (b.length + 2) b.data with
  | some (v, rest) => if (skipWs rest).isEmpty then some v else none
  | none => none

/-- `Serialize<Json> for InputMessage` (`src/api/schema/json.rs`), at the
`Value` level: the `json!` node for each method, with the opaque
`options`/`data` bytes parsed into a `Value` and inserted when present (the
source `expect`s that parse to succeed; `none` models the panic). The field
lists are written in the sorted order the `BTreeMap` holds them in. An empty
`Action` data vector, like an absent `options`, inserts nothing. -/
def serializeInput : InputMessage → Option Jval
  | InputMessage.Connect c pid =>
    some (Jval.jobj [("correlation_id", Jval.jstr c), ("method", Jval.jstr "connect"),
                     ("p_id", Jval.jnum (Int.ofNat pid))])
  | InputMessage.Create c t i none =>
    some (Jval.jobj [("correlation_id", Jval.jstr c), ("id", Jval.jstr i),
                     ("method", Jval.jstr "create"), ("type", Jval.jstr t)])
  | InputMessage.Create c t i (some b) =>
    (parsePayload b).map (fun v =>
      Jval.jobj [("correlation_id", Jval.jstr c), ("id", Jval.jstr i),
                 ("method", Jval.jstr "create"), ("options", v), ("type", Jval.jstr t)])
  | InputMessage.Join c t i =>
    some (Jval.jobj [("correlation_id", Jval.jstr c), ("id", Jval.jstr i),
                     ("method", Jval.jstr "join"), ("type", Jval.jstr t)])
  | InputMessage.Action t i d =>
    if d = "" then
      some (Jval.jobj [("id", Jval.jstr i), ("method", Jval.jstr "action"),
                       ("type", Jval.jstr t)])
    else
      (parsePayload d).map (fun v =>
        Jval.jobj [("data", v), ("id", Jval.jstr i), ("method", Jval.jstr "action"),
                   ("type", Jval.jstr t)])

/-- The field slots the `InputMessage` map visitor fills while walking the
object (`Deserialize<Json> for InputMessage`). -/
structure VisitorAcc : Type where
  method : Option String
  corr : Option String
  ty : Option String
  idStr : Option String
  pId : Option Nat
  optionsBytes : Option String
  dataBytes : Option String

/-- The empty accumulator. -/
def VisitorAcc.empty : VisitorAcc :=
  { method := none, corr := none, ty := none, idStr := none, pId := none,
    optionsBytes := none, dataBytes := none }

/-- One step of the visitor's field loop: known string fields demand a JSON
string, `p_id` demands a `u64` number, `options`/`data` capture the raw text
of the value (`&RawValue` — on the output of the serializer this text is the
`Value`'s own rendering), unknown fields are ignored. A value of the wrong
shape fails deserialization. -/
def visitField (acc : VisitorAcc) (k : String) (v : Jval) : Except Unit VisitorAcc :=
  if k = "method" then
    match v with
    | Jval.jstr s => Except.ok { acc with method := some s }
    | _ => Except.error ()
  else if k = "correlation_id" then
    match v with
    | Jval.jstr s => Except.ok { acc with corr := some s }
    | _ => Except.error ()
  else if k = "type" then
    match v with
    | Jval.jstr s => Except.ok { acc with ty := some s }
    | _ => Except.error ()
  else if k = "id" then
    match v with
    | Jval.jstr s => Except.ok { acc with idStr := some s }
    | _ => Except.error ()
  else if k = "p_id" then
    match v with
    | Jval.jnum n =>
      if 0 ≤ n ∧ n < 18446744073709551616 then Except.ok { acc with pId := some n.toNat }
      else Except.error ()
    | _ => Except.error ()
  else if k = "options" then Except.ok { acc with optionsBytes := some v.render }
  else if k = "data" then Except.ok { acc with dataBytes := some v.render }
  else Except.ok acc

/-- The visitor's `while let Some(f) = map.next_key_seed(...)` loop. -/
def visitFields (acc : VisitorAcc) : List (String × Jval) → Except Unit VisitorAcc
  | [] => Except.ok acc
  | (k, v) :: rest =>
    match visitField acc k v with
    | Except.ok acc2 => visitFields acc2 rest
    | Except.error e => Except.error e

/-- The visitor's final dispatch (`match method { CONNECT => ..., ... }`):
require the mandatory fields of the named method, `data` defaulting to the
empty vector, unknown or missing `method` failing. -/
def dispatchMethod (acc : VisitorAcc) : Except Unit InputMessage :=
  match acc.method with
  | none => Except.error ()
  | some m =>
    if m = "connect" then
      match acc.pId, acc.corr with
      | some p, some c => Except.ok (InputMessage.Connect c p)
      | _, _ => Except.error ()
    else if m = "create" then
      match acc.corr, acc.ty, acc.idStr with
      | some c, some t, some i => Except.ok (InputMessage.Create c t i acc.optionsBytes)
      | _, _, _ => Except.error ()
    else if m = "join" then
      match acc.corr, acc.ty, acc.idStr with
      | some c, some t, some i => Except.ok (InputMessage.Join c t i)
      | _, _, _ => Except.error ()
    else if m = "action" then
      match acc.ty, acc.idStr with
      | some t, some i => Except.ok (InputMessage.Action t i (acc.dataBytes.getD ""))
      | _, _ => Except.error ()
    else Except.error ()

/-- `Deserialize<Json> for InputMessage` at the `Value` level: the input must
be a map; the field loop runs, then the method dispatch. -/
def deserializeInput (j : Jval) : Except Unit InputMessage :=
  match j with
  | Jval.jobj fs =>
    match visitFields VisitorAcc.empty fs with
    | Except.error _ => Except.error ()
    | Except.ok acc => dispatchMethod acc
  | _ => Except.error ()

/-- A payload byte string is canonical when it is exactly the rendering of
the `Value` it parses to (so re-encoding cannot change it). -/
def canonicalPayloadB (b : String) : Bool :=
  match parsePayload b with
  | some v => decide (Jval.render v = b)
  | none => false

/-- Payload validity/canonicity of an envelope's opaque fields. -/
def payloadsOk : InputMessage → Bool
  | InputMessage.Create _ _ _ (some b) => canonicalPayloadB b
  | InputMessage.Action _ _ d => if d = "" then true else canonicalPayloadB d
  | _ => true

/-- The modelled `u64` bound on a Connect envelope's player id
(`18446744073709551616 = 2^64`). -/
def pidOk : InputMessage → Prop
  | InputMessage.Connect _ p => p < 18446744073709551616
  | _ => True

/-! Concrete fixtures used by counterexamples and witnesses. -/

/-- Two connected players and one registered lobby type with no lobby yet. -/
def stDup : ServerState :=
  { sm := ((SessionManager.mk [] []).connect "a" 1).connect "b" 2
    handlers := [("chat", hAccept)] }

/-- Player 1 creates `chat/r`, then player 2 sends a Create for the same
`chat/r`. -/
def stDup2 : Option ServerState :=
  (processMessage stDup 1 (InputMessage.Create "c1" "chat" "r" none)).bind
    (fun s => processMessage s 2 (InputMessage.Create "c2" "chat" "r" none))

/-- A session manager with one connected player and no subscriptions. -/
def smSub : SessionManager := { sessions := [], subscriptions := [(1, [])] }

/-- One connected player, registered type `chat`, no lobby. -/
def stU : ServerState :=
  { sm := (SessionManager.mk [] []).connect "a" 1, handlers := [("chat", hAccept)] }

/-- One connected player, registered type `chat` whose payload decoders
always fail, no lobby. -/
def stR : ServerState :=
  { sm := (SessionManager.mk [] []).connect "a" 1, handlers := [("chat", hReject)] }

/-- A `chat` handler owning the single empty-queue lobby `r`. -/
def thC2 : TypeHandler := { hAccept with rooms := [("r", { events := [] })] }

/-- Player 1 is recorded twice on `chat/r` (two Joins), lobby `r` exists. -/
def stC2 : ServerState :=
  { sm := { sessions := [], subscriptions := [(1, [("chat", ["r", "r"])])] }
    handlers := [("chat", thC2)] }

/-- Reply manager with one pending correlation id `5`. -/
def rmW : ReplyManager Nat Nat Nat := { repliesRegistry := [5], delivered := [] }

/-- Duplicate resolutions for id `5`: a success, then an error, then an
expiry, then another success. -/
def rmWops : List (RMOp Nat Nat Nat) :=
  [RMOp.ok 5 1, RMOp.err 5 2, RMOp.expire 5, RMOp.ok 5 3]

/-- A small concrete hook set: state is a counter, deltas are numbers,
actions are strings. Finishes exactly at state `5` with terminal delta
`All 7`. -/
def hooksW : WorkerHooks Nat Nat String :=
  { isFinished := fun s => (s == 5, if s == 5 then some (WDiff.All 7) else none)
    onJoin := fun s j => (s + j, some [WDiff.TargetUnique j 1])
    onLeave := fun s l => (s + 1, some (WDiff.All l))
    onTick := fun s _ acts => (s + acts.length, some [WDiff.All s]) }

/-- A live worker state (hook state `0`, two members, empty buffer). -/
def stW : WState Nat String := { game := 0, players := [1, 2], buffer := [] }

/-- A finished worker state (hook state `5`). -/
def stW5 : WState Nat String := { game := 5, players := [1, 2], buffer := [] }

/-- The canonical-payload Create used by the round-trip witness. -/
def mW : InputMessage :=
  InputMessage.Create "c" "chat" "r" (some "\x7b\"a\":2,\"b\":1\x7d")

/-- A Create whose options bytes are valid JSON but not in canonical form
(spacing and key order differ from the `Value` re-rendering). -/
def mCex : InputMessage :=
  InputMessage.Create "c" "chat" "r" (some "\x7b\"b\":1, \"a\":2\x7d")

/-- A concrete batching window: a join, a further action, a leave. -/
def wWin : List (Nat × WEvent String) :=
  [(2, WEvent.Join 3), (1, WEvent.Action "x"), (3, WEvent.Leave 9)]

/-! Association-list lemmas. -/

theorem alookup_ainsert_self {κ β : Type} [DecidableEq κ] (l : List (κ × β)) (k : κ) (v : β) :
    alookup (ainsert l k v) k = some v := by
  induction l with
  | nil => simp [ainsert, alookup]
  | cons hd tl ih =>
    obtain ⟨k0, v0⟩ := hd
    by_cases h : k0 = k
    · simp [ainsert, h, alookup]
    · simp [ainsert, h, alookup, ih]

theorem alookup_ainsert_ne {κ β : Type} [DecidableEq κ] (l : List (κ × β)) (k k2 : κ) (v : β)
    (h : k2 ≠ k) : alookup (ainsert l k v) k2 = alookup l k2 := by
  induction l with
  | nil => simp [ainsert, alookup, Ne.symm h]
  | cons hd tl ih =>
    obtain ⟨k0, v0⟩ := hd
    by_cases hk : k0 = k
    · subst hk
      simp [ainsert, alookup, Ne.symm h]
    · simp [ainsert, hk, alookup, ih]

theorem ainsert_ainsert {κ β : Type} [DecidableEq κ] (l : List (κ × β)) (k : κ) (v1 v2 : β) :
    ainsert (ainsert l k v1) k v2 = ainsert l k v2 := by
  induction l with
  | nil => simp [ainsert]
  | cons hd tl ih =>
    obtain ⟨k0, v0⟩ := hd
    by_cases h : k0 = k
    · simp [ainsert, h]
    · simp [ainsert, h, ih]

theorem alookup_eq_none_of_not_mem {κ β : Type} [DecidableEq κ] {l : List (κ × β)} {k : κ}
    (h : k ∉ l.map Prod.fst) : alookup l k = none := by
  induction l with
  | nil => rfl
  | cons hd tl ih =>
    obtain ⟨k0, v0⟩ := hd
    simp only [List.map_cons, List.mem_cons, not_or] at h
    simp [alookup, Ne.symm h.1, ih h.2]

/-- Claim C1: the spec (and its design note §9) requires a Create naming an
existing lobby id to be rejected with `CreateAck{success:false}`, starting no
new runtime and leaving the existing lobby untouched. The code instead has
`GameRuntimeHandle::register` build and start a fresh runtime unconditionally
and `insert` it over the existing entry, while `process_message` always
answers `CreateAck{success:true}` (its own `TODO` admits the ack is not
checked). Evidence at the failing input: after player 1 creates `chat/r` and
player 2 sends a duplicate Create for `chat/r`, the registry entry for `r` is
a fresh runtime whose queue holds only player 2's Join (player 1's lobby is
discarded), and both players were answered `success:true`. -/
theorem duplicate_create_overwrites :
    (stDup2.map (fun s => roomEvents s "chat" "r") = some (some [(2, REvent.Join 2)])) ∧
    (stDup2.map (fun s => queueOf s 1) =
      some (some [OutputMessage.Connect "a" true, OutputMessage.Create "c1" true])) ∧
    (stDup2.map (fun s => queueOf s 2) =
      some (some [OutputMessage.Connect "b" true, OutputMessage.Create "c2" true])) := by
  decide

/-- Claim C6, counterexample: `SessionManager::subscribe` pushes the id
unconditionally, so subscribing twice with the same `(player, type, id)`
triple does not equal subscribing once (the id is recorded twice). -/
theorem subscribe_not_idempotent_cex :
    (smSub.subscribe 1 "chat" "r").bind (fun s => s.subscribe 1 "chat" "r") ≠
      smSub.subscribe 1 "chat" "r" := by
  decide

/-- Claim C6, amended: `subscribe` appends unconditionally — after two
subscribes with the same triple the player's list for that type carries the
id twice (a duplicate join is recorded, not ignored). -/
theorem subscribe_appends_duplicate (sm : SessionManager) (p : Nat) (t i : String)
    (subs : List (String × List String))
    (h : alookup sm.subscriptions p = some subs) :
    ∃ sm2, (sm.subscribe p t i).bind (fun s1 => s1.subscribe p t i) = some sm2 ∧
      alookup sm2.subscriptions p =
        some (ainsert subs t (((alookup subs t).getD []) ++ [i, i])) := by
  simp only [SessionManager.subscribe, h, Option.bind_eq_bind, Option.some_bind,
    alookup_ainsert_self]
  refine ⟨_, rfl, ?_⟩
  simp [alookup_ainsert_self, ainsert_ainsert]

/-- Claim C6, witness for the amended claim at a concrete connected
session. -/
theorem subscribe_appends_duplicate_witness :
    alookup smSub.subscriptions 1 = some [] ∧
    ∃ sm2, (smSub.subscribe 1 "chat" "r").bind (fun s1 => s1.subscribe 1 "chat" "r") = some sm2 ∧
      alookup sm2.subscriptions 1 =
        some (ainsert [] "chat" ((((alookup ([] : List (String × List String)) "chat").getD []) ++ ["r", "r"]))) :=
  ⟨rfl, subscribe_appends_duplicate smSub 1 "chat" "r" [] rfl⟩

/-- Claim C7, counterexample: a Join naming an unregistered lobby type is
answered with a `GenericError` (the `RoomTypeNotFound` conversion), not a
`JoinAck{success:false}`; and a Join naming a registered type but an unknown
lobby id is answered `JoinAck{success:true}`, not `success:false`. -/
theorem unknown_type_or_id_cex :
    ((processMessage stU 1 (InputMessage.Join "c" "nope" "r")).map (fun s => queueOf s 1) =
      some (some [OutputMessage.Connect "a" true,
                  OutputMessage.GenericError genericErrorDescription])) ∧
    ((processMessage stU 1 (InputMessage.Join "c" "chat" "ghost")).map (fun s => queueOf s 1) =
      some (some [OutputMessage.Connect "a" true, OutputMessage.Join "c" true])) := by
  decide

/-- Claim C8, counterexample: when the Create `options` payload fails to
decode, the requester receives a `GenericError` followed by
`CreateAck{success:true}` (not `success:false`) and no lobby is created; when
an Action payload fails to decode, the error is discarded
(`let _ = handler.action(...)`) — the whole server state is unchanged and no
`GenericError` is sent to anyone. -/
theorem decode_failure_cex :
    ((processMessage stR 1 (InputMessage.Create "c" "chat" "r" (some "bad"))).map
        (fun s => queueOf s 1) =
      some (some [OutputMessage.Connect "a" true,
                  OutputMessage.GenericError genericErrorDescription,
                  OutputMessage.Create "c" true])) ∧
    ((processMessage stR 1 (InputMessage.Create "c" "chat" "r" (some "bad"))).map
        (fun s => (alookup s.handlers "chat").map (fun h => h.rooms)) = some (some [])) ∧
    (processMessage stR 1 (InputMessage.Action "chat" "r" "bad") = some stR) :=
  ⟨by decide, by decide, rfl⟩

/-- Claim C10: `SessionManager::connect` is total — it unconditionally builds
a fresh queue already holding `ConnectAck{success:true}`, replaces any live
session for the same player id, and resets the subscription set to empty; a
disconnect sweep right after such a reconnect therefore drains an empty set
and delivers no Leave to any lobby (the registry is untouched). -/
theorem connect_replaces_session (st : ServerState) (cid : String) (p : Nat) :
    alookup (st.sm.connect cid p).sessions p = some [OutputMessage.Connect cid true] ∧
    alookup (st.sm.connect cid p).subscriptions p = some [] ∧
    disconnect { st with sm := st.sm.connect cid p } p =
      some { sm := { st.sm.connect cid p with
                       subscriptions := aremove (st.sm.connect cid p).subscriptions p }
             handlers := st.handlers } := by
  refine ⟨alookup_ainsert_self _ _ _, alookup_ainsert_self _ _ _, ?_⟩
  simp [disconnect, SessionManager.unsubscribeAll, SessionManager.connect,
    alookup_ainsert_self, disconnectLoop]

/-- Claim C7, amended: a Create or Join naming an unregistered lobby type is
answered with a `GenericError` (not an Ack with `success:false`); a Join
naming a registered type but an unknown lobby id is still subscribed and
answered `JoinAck{success:true}` while the runtime itself is untouched; and
join/leave/action against an unknown lobby id are silent no-ops on the
registry handle. -/
theorem unknown_type_or_id_behavior (st : ServerState) (p : Nat) (t i cid : String) :
    (alookup st.handlers t = none →
      ∀ q, alookup st.sm.sessions p = some q →
        ∃ st2, processMessage st p (InputMessage.Join cid t i) = some st2 ∧
          queueOf st2 p = some (q ++ [OutputMessage.GenericError genericErrorDescription]) ∧
          st2.handlers = st.handlers) ∧
    (alookup st.handlers t = none →
      ∀ q opts, alookup st.sm.sessions p = some q →
        ∃ st2, processMessage st p (InputMessage.Create cid t i opts) = some st2 ∧
          queueOf st2 p = some (q ++ [OutputMessage.GenericError genericErrorDescription]) ∧
          st2.handlers = st.handlers) ∧
    (∀ h q subs, alookup st.handlers t = some h → alookup h.rooms i = none →
      alookup st.sm.subscriptions p = some subs → alookup st.sm.sessions p = some q →
        ∃ st2, processMessage st p (InputMessage.Join cid t i) = some st2 ∧
          alookup st2.handlers t = some h ∧
          alookup st2.sm.subscriptions p =
            some (ainsert subs t (((alookup subs t).getD []) ++ [i])) ∧
          queueOf st2 p = some (q ++ [OutputMessage.Join cid true])) ∧
    (∀ h a, alookup h.rooms i = none →
      TypeHandler.joinRoom h p i = h ∧ TypeHandler.leaveRoom h p i = h ∧
        TypeHandler.actionRoom h p i a = h) := by
  refine ⟨?_, ?_, ?_, ?_⟩
  · intro hn q hq
    simp only [processMessage, hn]
    refine ⟨_, rfl, ?_, rfl⟩
    simp [queueOf, SessionManager.send, hq, alookup_ainsert_self]
  · intro hn q opts hq
    simp only [processMessage, hn]
    refine ⟨_, rfl, ?_, rfl⟩
    simp [queueOf, SessionManager.send, hq, alookup_ainsert_self]
  · intro h q subs hh hri hsubs hq
    simp only [processMessage, hh, SessionManager.subscribe, hsubs,
      TypeHandler.joinRoom, hri]
    refine ⟨_, rfl, alookup_ainsert_self _ _ _, ?_, ?_⟩
    · simp [SessionManager.send, hq, alookup_ainsert_self]
    · simp [queueOf, SessionManager.send, hq, alookup_ainsert_self]
  · intro h a hri
    refine ⟨?_, ?_, ?_⟩ <;>
      simp [TypeHandler.joinRoom, TypeHandler.leaveRoom, TypeHandler.actionRoom, hri]

/-- Claim C7, witness for the amended claim: the unknown-type Join, the
unknown-id Join and the unknown-id no-ops, each at a concrete state. -/
theorem unknown_type_or_id_behavior_witness :
    (∃ st2, processMessage stU 1 (InputMessage.Join "c" "nope" "r") = some st2 ∧
      queueOf st2 1 = some ([OutputMessage.Connect "a" true] ++
        [OutputMessage.GenericError genericErrorDescription]) ∧
      st2.handlers = stU.handlers) ∧
    (∃ st2, processMessage stU 1 (InputMessage.Join "c" "chat" "ghost") = some st2 ∧
      alookup st2.handlers "chat" = some hAccept ∧
      alookup st2.sm.subscriptions 1 =
        some (ainsert [] "chat"
          (((alookup ([] : List (String × List String)) "chat").getD []) ++ ["ghost"])) ∧
      queueOf st2 1 = some ([OutputMessage.Connect "a" true] ++ [OutputMessage.Join "c" true])) ∧
    (TypeHandler.joinRoom hAccept 1 "ghost" = hAccept ∧
     TypeHandler.leaveRoom hAccept 1 "ghost" = hAccept ∧
     TypeHandler.actionRoom hAccept 1 "ghost" "x" = hAccept) :=
  ⟨(unknown_type_or_id_behavior stU 1 "nope" "r" "c").1 rfl _ rfl,
   (unknown_type_or_id_behavior stU 1 "chat" "ghost" "c").2.2.1 hAccept _ [] rfl rfl rfl rfl,
   (unknown_type_or_id_behavior stU 1 "chat" "ghost" "c").2.2.2 hAccept "x" rfl⟩

/-- Claim C8, amended: on a Create whose `options` payload fails to decode,
no lobby is created and the requester is sent a `GenericError` — but then
also `CreateAck{success:true}` (`process_message` never checks the result);
other sessions are untouched. On an Action whose payload fails to decode,
the decode error is silently discarded by `process_message` — no
`GenericError` is sent and the entire server state is unchanged (so the
lobby is indeed undisturbed, but so is the originator's queue). -/
theorem decode_failure_behavior (st : ServerState) (p : Nat) (t i cid b d : String) :
    (∀ h q subs, alookup st.handlers t = some h → h.decodeOptions b = none →
      alookup st.sm.sessions p = some q → alookup st.sm.subscriptions p = some subs →
        ∃ st2, processMessage st p (InputMessage.Create cid t i (some b)) = some st2 ∧
          alookup st2.handlers t = some h ∧
          queueOf st2 p = some (q ++ [OutputMessage.GenericError genericErrorDescription,
                                      OutputMessage.Create cid true]) ∧
          (∀ p2, p2 ≠ p → alookup st2.sm.sessions p2 = alookup st.sm.sessions p2)) ∧
    (∀ h, alookup st.handlers t = some h → h.decodeAction d = none →
      processMessage st p (InputMessage.Action t i d) = some st) := by
  constructor
  · intro h q subs hh hb hq hsubs
    simp only [processMessage, hh, SessionManager.subscribe, hsubs,
      TypeHandler.registerErased, hb]
    refine ⟨_, rfl, alookup_ainsert_self _ _ _, ?_, ?_⟩
    · simp [queueOf, SessionManager.send, hq, alookup_ainsert_self, ainsert_ainsert]
    · intro p2 hp2
      simp [SessionManager.send, hq, alookup_ainsert_self,
        alookup_ainsert_ne _ _ _ _ hp2]
  · intro h hh hd
    simp [processMessage, hh, TypeHandler.actionErased, hd]

/-- Claim C8, witness for the amended claim at a concrete state whose
decoders reject every payload. -/
theorem decode_failure_behavior_witness :
    (∃ st2, processMessage stR 1 (InputMessage.Create "c" "chat" "r" (some "bad")) = some st2 ∧
      alookup st2.handlers "chat" = some hReject ∧
      queueOf st2 1 = some ([OutputMessage.Connect "a" true] ++
        [OutputMessage.GenericError genericErrorDescription, OutputMessage.Create "c" true]) ∧
      (∀ p2, p2 ≠ 1 → alookup st2.sm.sessions p2 = alookup stR.sm.sessions p2)) ∧
    processMessage stR 1 (InputMessage.Action "chat" "r" "bad") = some stR :=
  ⟨(decode_failure_behavior stR 1 "chat" "r" "c" "bad" "bad").1 hReject _ [] rfl rfl rfl rfl,
   (decode_failure_behavior stR 1 "chat" "r" "c" "bad" "bad").2 hReject rfl rfl⟩

/-! Lemmas about the disconnect sweep. -/

theorem leaveRoom_rooms_self (h : TypeHandler) (p : Nat) (i : String) (lh : LobbyHandle)
    (hi : alookup h.rooms i = some lh) :
    alookup (TypeHandler.leaveRoom h p i).rooms i =
      some { events := lh.events ++ [(p, REvent.Leave p)] } := by
  simp [TypeHandler.leaveRoom, hi, alookup_ainsert_self]

theorem leaveRoom_rooms_ne (h : TypeHandler) (p : Nat) (j i : String) (hne : i ≠ j) :
    alookup (TypeHandler.leaveRoom h p j).rooms i = alookup h.rooms i := by
  cases hj : alookup h.rooms j with
  | none => simp [TypeHandler.leaveRoom, hj]
  | some lh => simp [TypeHandler.leaveRoom, hj, alookup_ainsert_ne _ _ _ _ hne]

theorem leaveAllRooms_events (p : Nat) (ids : List String) :
    ∀ (h : TypeHandler) (i : String) (lh : LobbyHandle), alookup h.rooms i = some lh →
      alookup (leaveAllRooms h p ids).rooms i =
        some { events := lh.events ++ List.replicate (occCount ids i) (p, REvent.Leave p) } := by
  induction ids with
  | nil =>
    intro h i lh hi
    simp [leaveAllRooms, occCount, hi]
  | cons j rest ih =>
    intro h i lh hi
    have hstep : leaveAllRooms h p (j :: rest) = leaveAllRooms (TypeHandler.leaveRoom h p j) p rest := rfl
    rw [hstep]
    by_cases hji : j = i
    · subst hji
      have h1 := leaveRoom_rooms_self h p j lh hi
      have h2 := ih (TypeHandler.leaveRoom h p j) j _ h1
      rw [h2]
      have hocc : occCount (j :: rest) j = occCount rest j + 1 := by
        simp [occCount, List.filter]
      rw [hocc]
      simp [List.replicate_succ, List.append_assoc]
    · have h1 : alookup (TypeHandler.leaveRoom h p j).rooms i = some lh := by
        rw [leaveRoom_rooms_ne h p j i (fun hh => hji hh.symm)]
        exact hi
      have h2 := ih (TypeHandler.leaveRoom h p j) i lh h1
      rw [h2]
      have hocc : occCount (j :: rest) i = occCount rest i := by
        simp [occCount, List.filter, hji]
      rw [hocc]

theorem disconnectLoop_spec (p : Nat) :
    ∀ (subs : List (String × List String)) (handlers : List (String × TypeHandler)),
      (∀ q ∈ subs, (alookup handlers q.1).isSome = true) →
      (subs.map Prod.fst).Nodup →
      ∃ hs, disconnectLoop handlers p subs = some hs ∧
        ∀ t th, alookup handlers t = some th →
          alookup hs t = some (leaveAllRooms th p ((alookup subs t).getD [])) := by
  intro subs
  induction subs with
  | nil =>
    intro handlers hall hnd
    refine ⟨handlers, rfl, fun t th ht => ?_⟩
    simp [alookup, leaveAllRooms, ht]
  | cons q rest ih =>
    obtain ⟨t0, ids0⟩ := q
    intro handlers hall hnd
    have h0 := hall (t0, ids0) (List.mem_cons_self _ _)
    obtain ⟨th0, hth0⟩ : ∃ th0, alookup handlers t0 = some th0 := by
      cases hh : alookup handlers t0 with
      | none => rw [hh] at h0; simp at h0
      | some th0 => exact ⟨th0, rfl⟩
    have hall2 : ∀ q2 ∈ rest, (alookup (ainsert handlers t0 (leaveAllRooms th0 p ids0)) q2.1).isSome = true := by
      intro q2 hq2
      by_cases he : q2.1 = t0
      · rw [he, alookup_ainsert_self]; rfl
      · rw [alookup_ainsert_ne _ _ _ _ he]
        exact hall q2 (List.mem_cons_of_mem _ hq2)
    have hnd2 : (rest.map Prod.fst).Nodup := by
      simp only [List.map_cons, List.nodup_cons] at hnd
      exact hnd.2
    obtain ⟨hs, hloop, hprop⟩ := ih (ainsert handlers t0 (leaveAllRooms th0 p ids0)) hall2 hnd2
    refine ⟨hs, ?_, ?_⟩
    · simp only [disconnectLoop, hth0]
      exact hloop
    · intro t th ht
      by_cases hte : t = t0
      · subst hte
        have hth : th = th0 := by
          rw [ht] at hth0
          injection hth0
        subst hth
        have h2 : alookup (ainsert handlers t (leaveAllRooms th p ids0)) t =
            some (leaveAllRooms th p ids0) := alookup_ainsert_self _ _ _
        have h3 := hprop t _ h2
        have hrt : alookup rest t = none := by
          apply alookup_eq_none_of_not_mem
          simp only [List.map_cons, List.nodup_cons] at hnd
          exact hnd.1
        rw [h3, hrt]
        simp [alookup, leaveAllRooms]
      · have h2 : alookup (ainsert handlers t0 (leaveAllRooms th0 p ids0)) t = some th := by
          rw [alookup_ainsert_ne _ _ _ _ hte]
          exact ht
        have h3 := hprop t th h2
        rw [h3]
        have : alookup ((t0, ids0) :: rest) t = alookup rest t := by
          simp [alookup, Ne.symm hte]
        rw [this]

/-- Claim C2, counterexample: a player who joined the same lobby twice (two
Joins for `chat/r`, both recorded by the unconditional `subscribe`) receives
not one but two Leave events in `chat/r`'s queue on the disconnect sweep —
the sweep issues one Leave per recorded occurrence, not per lobby. -/
theorem disconnect_duplicate_leave_cex :
    (disconnect stC2 1).map (fun s => (roomEvents s "chat" "r").map (fun e => leaveCount e 1)) =
      some (some 2) := by
  decide

/-- Claim C2, amended: the disconnect sweep drains the subscription set and
issues exactly one Leave carrying the player's id per recorded occurrence of
each lobby id (so exactly one per lobby joined at most once); a lobby's
queue grows by nothing else — in particular no Leave for another player and
none for a lobby absent from the drained set. -/
theorem disconnect_leaves_per_subscription (st : ServerState) (p : Nat)
    (subs : List (String × List String)) (t i : String) (th : TypeHandler) (lh : LobbyHandle)
    (hsubs : alookup st.sm.subscriptions p = some subs)
    (hnd : (subs.map Prod.fst).Nodup)
    (hall : ∀ q ∈ subs, (alookup st.handlers q.1).isSome = true)
    (ht : alookup st.handlers t = some th)
    (hi : alookup th.rooms i = some lh) :
    ∃ st2, disconnect st p = some st2 ∧
      roomEvents st2 t i =
        some (lh.events ++ List.replicate (subOccurrences subs t i) (p, REvent.Leave p)) := by
  obtain ⟨hs, hloop, hprop⟩ := disconnectLoop_spec p subs st.handlers hall hnd
  simp only [disconnect, SessionManager.unsubscribeAll, hsubs, hloop, Option.map_some]
  refine ⟨_, rfl, ?_⟩
  have h2 := hprop t th ht
  simp only [roomEvents, h2]
  rw [leaveAllRooms_events p _ th i lh hi]
  rfl

/-- Claim C2, witness for the amended claim: player 1 recorded twice on
`chat/r`; the sweep appends exactly two Leaves for player 1. -/
theorem disconnect_leaves_per_subscription_witness :
    alookup stC2.sm.subscriptions 1 = some [("chat", ["r", "r"])] ∧
    ∃ st2, disconnect stC2 1 = some st2 ∧
      roomEvents st2 "chat" "r" =
        some (([] : List (Nat × REvent)) ++
          List.replicate (subOccurrences [("chat", ["r", "r"])] "chat" "r") (1, REvent.Leave 1)) :=
  ⟨rfl, disconnect_leaves_per_subscription stC2 1 [("chat", ["r", "r"])] "chat" "r" thC2
    { events := [] } rfl (by decide) (by decide) rfl rfl⟩

/-! Reply-manager lemmas. -/

theorem RMresolve_inv {Id R E : Type} [DecidableEq Id]
    (m : ReplyManager Id R E) (id id2 : Id) (rep : Reply R E)
    (hcount : deliveredCount m id ≤ 1)
    (hpend : id ∈ m.repliesRegistry → deliveredCount m id = 0) :
    deliveredCount (if id2 ∈ m.repliesRegistry then
        { repliesRegistry := m.repliesRegistry.filter (fun x => x ≠ id2)
          delivered := m.delivered ++ [(id2, rep)] } else m) id ≤ 1 ∧
      (id ∈ (if id2 ∈ m.repliesRegistry then
          { repliesRegistry := m.repliesRegistry.filter (fun x => x ≠ id2)
            delivered := m.delivered ++ [(id2, rep)] }
        else m : ReplyManager Id R E).repliesRegistry →
        deliveredCount (if id2 ∈ m.repliesRegistry then
            { repliesRegistry := m.repliesRegistry.filter (fun x => x ≠ id2)
              delivered := m.delivered ++ [(id2, rep)] } else m) id = 0) := by
  by_cases hm : id2 ∈ m.repliesRegistry
  · simp only [if_pos hm]
    by_cases he : id2 = id
    · subst he
      have h0 := hpend hm
      constructor
      · unfold deliveredCount at h0 ⊢
        simp only [List.filter_append, List.length_append]
        have h1 : (([(id2, rep)]).filter (fun e => e.1 = id2)).length = 1 := by simp
        omega
      · intro hmem
        exfalso
        rw [List.mem_filter] at hmem
        simp at hmem
    · constructor
      · unfold deliveredCount at hcount ⊢
        simp only [List.filter_append, List.length_append]
        have h1 : (([(id2, rep)]).filter (fun e => e.1 = id)).length = 0 := by simp [he]
        omega
      · intro hmem
        rw [List.mem_filter] at hmem
        have h0 := hpend hmem.1
        unfold deliveredCount at h0 ⊢
        simp only [List.filter_append, List.length_append]
        have h1 : (([(id2, rep)]).filter (fun e => e.1 = id)).length = 0 := by simp [he]
        omega
  · simp only [if_neg hm]
    exact ⟨hcount, hpend⟩

theorem RMstep_inv {Id R E : Type} [DecidableEq Id] (m : ReplyManager Id R E)
    (op : RMOp Id R E) (id : Id) (hne : op ≠ RMOp.register id)
    (hcount : deliveredCount m id ≤ 1)
    (hpend : id ∈ m.repliesRegistry → deliveredCount m id = 0) :
    deliveredCount (RMstep m op) id ≤ 1 ∧
      (id ∈ (RMstep m op).repliesRegistry → deliveredCount (RMstep m op) id = 0) := by
  cases op with
  | register id2 =>
    have hne2 : id2 ≠ id := fun he => hne (by rw [he])
    refine ⟨hcount, ?_⟩
    intro hmem
    apply hpend
    by_cases hm : id2 ∈ m.repliesRegistry
    · simpa [RMstep, hm] using hmem
    · simp only [RMstep, if_neg hm] at hmem
      rcases List.mem_cons.mp hmem with he2 | hmem2
      · exact absurd he2.symm hne2
      · exact hmem2
  | ok id2 r => exact RMresolve_inv m id id2 (Reply.Ok r) hcount hpend
  | err id2 e => exact RMresolve_inv m id id2 (Reply.Err e) hcount hpend
  | expire id2 => exact RMresolve_inv m id id2 Reply.Timeout hcount hpend

/-- Claim C3: for a correlation id with a pending one-shot sender that is
never re-registered, any serialized sequence of `ok` / `error` / vacuum
expiries delivers at most one resolution to its receiver — each resolver
removes the sender from `replies_registry` before sending, so the first of
success / error / expiry wins and every later resolution attempt for that id
finds no sender and is dropped. -/
theorem reply_resolution_at_most_once {Id R E : Type} [DecidableEq Id]
    (ops : List (RMOp Id R E)) (m0 : ReplyManager Id R E) (id : Id)
    (hreg : RMOp.register id ∉ ops)
    (hcount : deliveredCount m0 id ≤ 1)
    (hpend : id ∈ m0.repliesRegistry → deliveredCount m0 id = 0) :
    deliveredCount (RMrun m0 ops) id ≤ 1 ∧
      (id ∈ (RMrun m0 ops).repliesRegistry → deliveredCount (RMrun m0 ops) id = 0) := by
  induction ops generalizing m0 with
  | nil => exact ⟨hcount, hpend⟩
  | cons op rest ih =>
    have hne : op ≠ RMOp.register id := fun he => hreg (by rw [he]; exact List.mem_cons_self _ _)
    have hreg2 : RMOp.register id ∉ rest := fun hmem => hreg (List.mem_cons_of_mem _ hmem)
    have h1 := RMstep_inv m0 op id hne hcount hpend
    exact ih (RMstep m0 op) hreg2 h1.1 h1.2

/-- Claim C3, witness: pending id 5 hit by a success, an error, an expiry
and another success, in that order — exactly one resolution is delivered. -/
theorem reply_resolution_at_most_once_witness :
    RMOp.register 5 ∉ rmWops ∧ deliveredCount rmW 5 ≤ 1 ∧
      (deliveredCount (RMrun rmW rmWops) 5 ≤ 1 ∧
        (5 ∈ (RMrun rmW rmWops).repliesRegistry → deliveredCount (RMrun rmW rmWops) 5 = 0)) :=
  ⟨by decide, by decide,
   reply_resolution_at_most_once rmWops rmW 5 (by decide) (by decide) (by decide)⟩

/-! Worker-loop lemmas. -/

theorem runWindow_buffer {σ δ α : Type} (H : WorkerHooks σ δ α) :
    ∀ (w : List (Nat × WEvent α)) (st : WState σ α),
      (runWindow H st w).st.buffer = st.buffer ++ actsOf w := by
  intro w
  induction w with
  | nil => intro st; simp [runWindow, actsOf]
  | cons e rest ih =>
    intro st
    obtain ⟨sender, ev⟩ := e
    cases ev with
    | Action a => simp [runWindow, procEvent, ih, actsOf, List.append_assoc]
    | Join j => simp [runWindow, procEvent, ih, actsOf]
    | Leave l =>
      by_cases hl : l ∈ st.players <;>
        simp [runWindow, procEvent, hl, ih, actsOf]

theorem runWindow_trace_noTick {σ δ α : Type} (H : WorkerHooks σ δ α) :
    ∀ (w : List (Nat × WEvent α)) (st : WState σ α),
      ∀ c ∈ (runWindow H st w).trace, isJoinLeave c := by
  intro w
  induction w with
  | nil => intro st c hc; simp [runWindow] at hc
  | cons e rest ih =>
    intro st c hc
    obtain ⟨sender, ev⟩ := e
    cases ev with
    | Action a =>
      simp only [runWindow, procEvent, List.nil_append] at hc
      exact ih _ c hc
    | Join j =>
      simp only [runWindow, procEvent, List.cons_append, List.nil_append,
        List.mem_cons] at hc
      rcases hc with rfl | hc
      · trivial
      · exact ih _ c hc
    | Leave l =>
      by_cases hl : l ∈ st.players
      · simp only [runWindow, procEvent, hl, if_pos, List.cons_append, List.nil_append,
          List.mem_cons] at hc
        rcases hc with rfl | hc
        · trivial
        · exact ih _ c hc
      · simp only [runWindow, procEvent, hl, if_neg, not_false_iff, List.nil_append] at hc
        exact ih _ c hc

theorem ticksOf_eq_nil {α : Type} (tr : List (HookCall α)) (h : ∀ c ∈ tr, isJoinLeave c) :
    ticksOf tr = [] := by
  unfold ticksOf
  rw [List.filterMap_eq_nil_iff]
  intro c hc
  have hjl := h c hc
  cases c with
  | tick ps acts => exact hjl.elim
  | joined p => rfl
  | left p => rfl

/-- Claim C4: the lobby worker cycle — an expired idle timeout
(`tick_no_action`) with no event calls `on_tick` once with the current
players and the literal empty action list; a first Action opens the batching
window, during which further Actions accumulate in arrival order while Joins
and Leaves are applied immediately with their diffs emitted at once (never
batched: the window trace holds only join/leave hook calls and all its
emissions precede the tick's); when the window closes, `on_tick` runs exactly
once with the drained `actions_buffer` holding the `(player, action)` pairs
in arrival order, and the buffer is left empty. -/
theorem cycle_batching_spec {σ δ α : Type} (H : WorkerHooks σ δ α) (st : WState σ α)
    (hbuf : st.buffer = []) :
    (cycle H st CycleInput.idle).trace = [HookCall.tick st.players []] ∧
    ∀ (s : Nat) (a : α) (w : List (Nat × WEvent α)),
      ticksOf (cycle H st (CycleInput.firstAction s a w)).trace = [(s, a) :: actsOf w] ∧
      (∃ pre, (cycle H st (CycleInput.firstAction s a w)).trace =
          pre ++ [HookCall.tick (runWindow H { st with buffer := [(s, a)] } w).st.players
            ((s, a) :: actsOf w)] ∧
        ∀ c ∈ pre, isJoinLeave c) ∧
      (cycle H st (CycleInput.firstAction s a w)).emits =
        (runWindow H { st with buffer := [(s, a)] } w).emits ++
          emitsOf (runWindow H { st with buffer := [(s, a)] } w).st.players
            (H.onTick (runWindow H { st with buffer := [(s, a)] } w).st.game
              (runWindow H { st with buffer := [(s, a)] } w).st.players
              ((s, a) :: actsOf w)).2 ∧
      (cycle H st (CycleInput.firstAction s a w)).st.buffer = [] := by
  refine ⟨rfl, ?_⟩
  intro s a w
  have hst1 : ({ st with buffer := st.buffer ++ [(s, a)] } : WState σ α) =
      { st with buffer := [(s, a)] } := by
    rw [hbuf]
    rfl
  have hbw : (runWindow H { st with buffer := [(s, a)] } w).st.buffer =
      (s, a) :: actsOf w := by
    rw [runWindow_buffer]
    rfl
  have hcy : cycle H st (CycleInput.firstAction s a w) =
      { st := { (runWindow H { st with buffer := [(s, a)] } w).st with
                  game := (H.onTick (runWindow H { st with buffer := [(s, a)] } w).st.game
                    (runWindow H { st with buffer := [(s, a)] } w).st.players
                    ((s, a) :: actsOf w)).1
                  buffer := [] }
        emits := (runWindow H { st with buffer := [(s, a)] } w).emits ++
          emitsOf (runWindow H { st with buffer := [(s, a)] } w).st.players
            (H.onTick (runWindow H { st with buffer := [(s, a)] } w).st.game
              (runWindow H { st with buffer := [(s, a)] } w).st.players
              ((s, a) :: actsOf w)).2
        trace := (runWindow H { st with buffer := [(s, a)] } w).trace ++
          [HookCall.tick (runWindow H { st with buffer := [(s, a)] } w).st.players
            ((s, a) :: actsOf w)] } := by
    show ({ st := _, emits := _, trace := _ } : StepOut σ δ α) = _
    rw [hst1, hbw]
  refine ⟨?_, ⟨(runWindow H { st with buffer := [(s, a)] } w).trace, ?_, ?_⟩, ?_, ?_⟩
  · rw [hcy]
    show ticksOf (_ ++ _) = _
    rw [ticksOf, List.filterMap_append]
    rw [show List.filterMap _ (runWindow H { st with buffer := [(s, a)] } w).trace = [] from
      ticksOf_eq_nil _ (runWindow_trace_noTick H w _)]
    rfl
  · rw [hcy]
  · exact runWindow_trace_noTick H w _
  · rw [hcy]
  · rw [hcy]

/-- Claim C4, witness: the concrete hooks and a mixed window (a join, a
second action, a leave) — the tick runs once with both actions in arrival
order, the join/leave are traced before it. -/
theorem cycle_batching_spec_witness :
    stW.buffer = [] ∧
    (cycle hooksW stW CycleInput.idle).trace = [HookCall.tick stW.players []] ∧
    ticksOf (cycle hooksW stW (CycleInput.firstAction 1 "go" wWin)).trace =
      [(1, "go") :: actsOf wWin] ∧
    (∃ pre, (cycle hooksW stW (CycleInput.firstAction 1 "go" wWin)).trace =
        pre ++ [HookCall.tick (runWindow hooksW { stW with buffer := [(1, "go")] } wWin).st.players
          ((1, "go") :: actsOf wWin)] ∧
      ∀ c ∈ pre, isJoinLeave c) ∧
    (cycle hooksW stW (CycleInput.firstAction 1 "go" wWin)).st.buffer = [] :=
  ⟨rfl, (cycle_batching_spec hooksW stW rfl).1,
   ((cycle_batching_spec hooksW stW rfl).2 1 "go" wWin).1,
   ((cycle_batching_spec hooksW stW rfl).2 1 "go" wWin).2.1,
   ((cycle_batching_spec hooksW stW rfl).2 1 "go" wWin).2.2.2⟩

/-- Claim C5: on the first cycle whose `is_finished` check returns true, the
worker emits the optional terminal delta (if any), then the
`Diff{finished:true}` notification — empty data, addressed to every current
member — and exits: whatever events were still scheduled, no further
`on_join`/`on_leave`/`on_tick` hook is ever invoked (the returned trace is
empty). -/
theorem finish_terminates_worker {σ δ α : Type} (H : WorkerHooks σ δ α) (st : WState σ α)
    (inputs : List (CycleInput α)) (dopt : Option (WDiff δ))
    (h : H.isFinished st.game = (true, dopt)) :
    runWorker H st inputs = (finishEmits st dopt, []) := by
  cases inputs with
  | nil => simp [runWorker, h]
  | cons i rest => simp [runWorker, h]

/-- Claim C5, witness: the concrete hooks finish at state 5 with terminal
delta `All 7`; the worker emits it plus the finished notification and makes
no hook calls, despite a pending schedule. -/
theorem finish_terminates_worker_witness :
    hooksW.isFinished stW5.game = (true, some (WDiff.All 7)) ∧
    runWorker hooksW stW5 [CycleInput.idle, CycleInput.firstJoin 1 1] =
      (finishEmits stW5 (some (WDiff.All 7)), []) :=
  ⟨rfl, finish_terminates_worker hooksW stW5 [CycleInput.idle, CycleInput.firstJoin 1 1]
    (some (WDiff.All 7)) rfl⟩

/-! Envelope codec lemmas: one step of the visitor per field kind, the
field-loop step, and the method dispatch. -/

theorem vfCorr (acc : VisitorAcc) (c : String) :
    visitField acc "correlation_id" (Jval.jstr c) = Except.ok { acc with corr := some c } := by
  simp [visitField]

theorem vfMethod (acc : VisitorAcc) (s : String) :
    visitField acc "method" (Jval.jstr s) = Except.ok { acc with method := some s } := by
  simp [visitField]

theorem vfType (acc : VisitorAcc) (s : String) :
    visitField acc "type" (Jval.jstr s) = Except.ok { acc with ty := some s } := by
  simp [visitField]

theorem vfId (acc : VisitorAcc) (s : String) :
    visitField acc "id" (Jval.jstr s) = Except.ok { acc with idStr := some s } := by
  simp [visitField]

theorem vfPid (acc : VisitorAcc) (p : Nat) (hb : p < 18446744073709551616) :
    visitField acc "p_id" (Jval.jnum (Int.ofNat p)) = Except.ok { acc with pId := some p } := by
  simp [visitField, hb]

theorem vfOptions (acc : VisitorAcc) (v : Jval) :
    visitField acc "options" v = Except.ok { acc with optionsBytes := some v.render } := by
  simp [visitField]

theorem vfData (acc : VisitorAcc) (v : Jval) :
    visitField acc "data" v = Except.ok { acc with dataBytes := some v.render } := by
  simp [visitField]

theorem visitFields_cons (acc : VisitorAcc) (k : String) (v : Jval) (rest : List (String × Jval))
    (acc2 : VisitorAcc) (h : visitField acc k v = Except.ok acc2) :
    visitFields acc ((k, v) :: rest) = visitFields acc2 rest := by
  show (match visitField acc k v with
        | Except.ok acc2 => visitFields acc2 rest
        | Except.error e => Except.error e) = visitFields acc2 rest
  rw [h]

theorem deserializeInput_jobj (fs : List (String × Jval)) (acc : VisitorAcc)
    (h : visitFields VisitorAcc.empty fs = Except.ok acc) :
    deserializeInput (Jval.jobj fs) = dispatchMethod acc := by
  show (match visitFields VisitorAcc.empty fs with
        | Except.error _ => Except.error ()
        | Except.ok acc => dispatchMethod acc) = dispatchMethod acc
  rw [h]

theorem dispatch_connect (c : String) (p : Nat) :
    dispatchMethod { method := some "connect", corr := some c, ty := none, idStr := none,
                     pId := some p, optionsBytes := none, dataBytes := none } =
      Except.ok (InputMessage.Connect c p) := by
  simp [dispatchMethod]

theorem dispatch_create (c t i : String) (o : Option String) :
    dispatchMethod { method := some "create", corr := some c, ty := some t, idStr := some i,
                     pId := none, optionsBytes := o, dataBytes := none } =
      Except.ok (InputMessage.Create c t i o) := by
  simp [dispatchMethod]

theorem dispatch_join (c t i : String) :
    dispatchMethod { method := some "join", corr := some c, ty := some t, idStr := some i,
                     pId := none, optionsBytes := none, dataBytes := none } =
      Except.ok (InputMessage.Join c t i) := by
  simp [dispatchMethod]

theorem dispatch_action (t i : String) (d : Option String) :
    dispatchMethod { method := some "action", corr := none, ty := some t, idStr := some i,
                     pId := none, optionsBytes := none, dataBytes := d } =
      Except.ok (InputMessage.Action t i (d.getD "")) := by
  simp [dispatchMethod]

/-- Claim C9, counterexample: the opaque payload bytes are not preserved by
the encode/decode pair. Encoding re-parses the `options` bytes into a
`Value` (sorting keys, dropping spacing) and decoding captures the raw text
of that re-rendered value, so the non-canonical payload comes back
re-serialized: deserializing the serialization of this Create yields a
different envelope. -/
theorem roundtrip_payload_cex :
    ((serializeInput mCex).map (fun j => (deserializeInput j).toOption) ≠ some (some mCex)) ∧
    ((serializeInput mCex).map (fun j => (deserializeInput j).toOption) =
      some (some (InputMessage.Create "c" "chat" "r" (some "\x7b\"a\":2,\"b\":1\x7d")))) := by
  decide

/-- Claim C9, amended: for every valid input envelope whose opaque
`options`/`data` payload bytes are canonical (equal to the rendering of the
`Value` they parse to) and whose player id fits `u64`, deserializing the
JSON serialization yields the envelope again; in general the payload comes
back as its canonical re-serialization (see the counterexample), equal to
the original only up to JSON-value equivalence. -/
theorem roundtrip_canonical (m : InputMessage) (hp : payloadsOk m = true) (hb : pidOk m) :
    ∃ j, serializeInput m = some j ∧ deserializeInput j = Except.ok m := by
  cases m with
  | Connect c p =>
    have hb2 : p < 18446744073709551616 := hb
    refine ⟨_, rfl, ?_⟩
    rw [deserializeInput_jobj _ { method := some "connect", corr := some c, ty := none,
                                  idStr := none, pId := some p, optionsBytes := none,
                                  dataBytes := none } ?_]
    · exact dispatch_connect c p
    · rw [visitFields_cons _ _ _ _ _ (vfCorr _ c),
          visitFields_cons _ _ _ _ _ (vfMethod _ "connect"),
          visitFields_cons _ _ _ _ _ (vfPid _ p hb2)]
      rfl
  | Create c t i o =>
    cases o with
    | none =>
      refine ⟨_, rfl, ?_⟩
      rw [deserializeInput_jobj _ { method := some "create", corr := some c, ty := some t,
                                    idStr := some i, pId := none, optionsBytes := none,
                                    dataBytes := none } ?_]
      · exact dispatch_create c t i none
      · rw [visitFields_cons _ _ _ _ _ (vfCorr _ c),
            visitFields_cons _ _ _ _ _ (vfId _ i),
            visitFields_cons _ _ _ _ _ (vfMethod _ "create"),
            visitFields_cons _ _ _ _ _ (vfType _ t)]
        rfl
    | some b =>
      have hp2 : canonicalPayloadB b = true := hp
      unfold canonicalPayloadB at hp2
      cases hpp : parsePayload b with
      | none => rw [hpp] at hp2; simp at hp2
      | some v =>
        rw [hpp] at hp2
        have hrender : Jval.render v = b := of_decide_eq_true hp2
        refine ⟨Jval.jobj [("correlation_id", Jval.jstr c), ("id", Jval.jstr i),
          ("method", Jval.jstr "create"), ("options", v), ("type", Jval.jstr t)], ?_, ?_⟩
        · show (parsePayload b).map _ = _
          rw [hpp]
          rfl
        · rw [deserializeInput_jobj _ { method := some "create", corr := some c, ty := some t,
                                        idStr := some i, pId := none,
                                        optionsBytes := some (Jval.render v),
                                        dataBytes := none } ?_]
          · rw [dispatch_create, hrender]
          · rw [visitFields_cons _ _ _ _ _ (vfCorr _ c),
                visitFields_cons _ _ _ _ _ (vfId _ i),
                visitFields_cons _ _ _ _ _ (vfMethod _ "create"),
                visitFields_cons _ _ _ _ _ (vfOptions _ v),
                visitFields_cons _ _ _ _ _ (vfType _ t)]
            rfl
  | Join c t i =>
    refine ⟨_, rfl, ?_⟩
    rw [deserializeInput_jobj _ { method := some "join", corr := some c, ty := some t,
                                  idStr := some i, pId := none, optionsBytes := none,
                                  dataBytes := none } ?_]
    · exact dispatch_join c t i
    · rw [visitFields_cons _ _ _ _ _ (vfCorr _ c),
          visitFields_cons _ _ _ _ _ (vfId _ i),
          visitFields_cons _ _ _ _ _ (vfMethod _ "join"),
          visitFields_cons _ _ _ _ _ (vfType _ t)]
      rfl
  | Action t i d =>
    by_cases hd : d = ""
    · subst hd
      refine ⟨_, rfl, ?_⟩
      rw [deserializeInput_jobj _ { method := some "action", corr := none, ty := some t,
                                    idStr := some i, pId := none, optionsBytes := none,
                                    dataBytes := none } ?_]
      · exact dispatch_action t i none
      · rw [visitFields_cons _ _ _ _ _ (vfId _ i),
            visitFields_cons _ _ _ _ _ (vfMethod _ "action"),
            visitFields_cons _ _ _ _ _ (vfType _ t)]
        rfl
    · have hp2 : (if d = "" then true else canonicalPayloadB d) = true := hp
      rw [if_neg hd] at hp2
      unfold canonicalPayloadB at hp2
      cases hpp : parsePayload d with
      | none => rw [hpp] at hp2; simp at hp2
      | some v =>
        rw [hpp] at hp2
        have hrender : Jval.render v = d := of_decide_eq_true hp2
        refine ⟨Jval.jobj [("data", v), ("id", Jval.jstr i),
          ("method", Jval.jstr "action"), ("type", Jval.jstr t)], ?_, ?_⟩
        · show (if d = "" then _ else (parsePayload d).map _) = _
          rw [if_neg hd, hpp]
          rfl
        · rw [deserializeInput_jobj _ { method := some "action", corr := none, ty := some t,
                                        idStr := some i, pId := none, optionsBytes := none,
                                        dataBytes := some (Jval.render v) } ?_]
          · rw [dispatch_action, hrender]
            rfl
          · rw [visitFields_cons _ _ _ _ _ (vfData _ v),
                visitFields_cons _ _ _ _ _ (vfId _ i),
                visitFields_cons _ _ _ _ _ (vfMethod _ "action"),
                visitFields_cons _ _ _ _ _ (vfType _ t)]
            rfl

/-- Claim C9, witness for the amended claim: a Create whose options bytes
are already canonical round-trips exactly. -/
theorem roundtrip_canonical_witness :
    payloadsOk mW = true ∧ pidOk mW ∧
      ∃ j, serializeInput mW = some j ∧ deserializeInput j = Except.ok mW :=
  ⟨by decide, trivial, roundtrip_canonical mW (by decide) trivial⟩

end Thunders
